import Mathlib

/-! Service tracker: counter store and HTTP front end.

A verification development for `qlbe_create_a_scalab.go`.

The Go program keeps a `map[string]int` behind a `sync.RWMutex` and exposes
it through two handlers registered on a router.  The embedding below is
sequential: every method acquires the mutex on entry and releases it through
`defer` on return, so between two calls the mutex is always free and the
only state carried from call to call is the map.

Go's `int` is taken at its 64-bit width (the width on amd64/arm64 targets);
`++` on an `int` wraps around in two's complement.
-/

namespace Tracker

/-! ## Go `int` -/

/-- Largest value of Go's `int` (`math.MaxInt`). -/
def maxInt : Int := 2 ^ 63 - 1

/-- Smallest value of Go's `int` (`math.MinInt`). -/
def minInt : Int := -(2 ^ 63)

/-- Result of an `int` computation whose mathematical value is `x`:
the representative of `x` modulo `2 ^ 64` in `[minInt, maxInt]`. -/
def wrapInt (x : Int) : Int := (x + 2 ^ 63) % 2 ^ 64 - 2 ^ 63

/-! ## Counter store -/

/-- The `ServiceTracker` struct.  `services` is the `map[string]int`: `none`
is a key with no entry.  `typed` records that the stored values are Go
`int`s.  The `serviceMu` field is free between calls and is not carried. -/
structure ServiceTracker where
  services : String → Option Int
  typed : ∀ k v, services k = some v → minInt ≤ v ∧ v ≤ maxInt

/-- Reading `m[k]` from a Go map: the stored value, or the zero value of
`int` when `k` has no entry. -/
def mapIndex (m : String → Option Int) (k : String) : Int :=
  match m k with
  | some v => v
  | none => 0

/-- Go `NewServiceTracker`: a tracker over `make(map[string]int)`. -/
def NewServiceTracker : ServiceTracker where
  services := fun _ => none
  typed := by intro k v h; cases h

/-- Go `TrackService`: `st.services[service]++`, that is
`st.services[service] = st.services[service] + 1` in `int` arithmetic. -/
def ServiceTracker.TrackService (st : ServiceTracker) (service : String) : ServiceTracker where
  services := fun k =>
    if k = service then some (wrapInt (mapIndex st.services service + 1)) else st.services k
  typed := by
    intro k v h
    by_cases hk : k = service
    · simp only [hk, if_true, Option.some.injEq] at h
      rw [← h]
      unfold wrapInt minInt maxInt
      have h1 : 0 ≤ (mapIndex st.services service + 1 + 2 ^ 63) % (2 ^ 64 : Int) :=
        Int.emod_nonneg _ (by norm_num)
      have h2 : (mapIndex st.services service + 1 + 2 ^ 63) % (2 ^ 64 : Int) < 2 ^ 64 :=
        Int.emod_lt_of_pos _ (by norm_num)
      constructor <;> omega
    · simp only [hk, if_false] at h
      exact st.typed k v h

/-- Go `GetServiceCount`: `return st.services[service]`. -/
def ServiceTracker.GetServiceCount (st : ServiceTracker) (service : String) : Int :=
  mapIndex st.services service

/-- Runs `n` successive `TrackService(service)` calls. -/
def trackTimes (service : String) : Nat → ServiceTracker → ServiceTracker
  | 0, st => st
  | n + 1, st => trackTimes service n (st.TrackService service)

/-- A sequence of `TrackService` calls, one per listed name, in order. -/
def trackAll (st : ServiceTracker) (names : List String) : ServiceTracker :=
  names.foldl ServiceTracker.TrackService st

/-- A call on the counter store. -/
inductive Call where
  | track (service : String)
  | get (service : String)
  deriving DecidableEq

/-- The tracker after one call; `GetServiceCount` only reads. -/
def ServiceTracker.call (st : ServiceTracker) : Call → ServiceTracker
  | .track s => st.TrackService s
  | .get _ => st

/-- A tracker whose entry for `"s"` holds the largest `int`. -/
def saturated : ServiceTracker where
  services := fun k => if k = "s" then some maxInt else none
  typed := by
    intro k v h
    by_cases hk : k = "s"
    · simp only [hk, if_true, Option.some.injEq] at h
      rw [← h]
      unfold minInt maxInt
      constructor <;> norm_num
    · simp only [hk, if_false] at h
      cases h

/-- The tracker reached from `NewServiceTracker` by a sequence of calls. -/
def reach (calls : List Call) : ServiceTracker :=
  calls.foldl ServiceTracker.call NewServiceTracker

/-- Number of `TrackService(s)` calls in a sequence of calls. -/
def tracksOf (s : String) (calls : List Call) : Nat :=
  calls.count (Call.track s)

/-! ## HTTP front end -/

/-- The part of an `*http.Request` the program reads: the method and the URL
path the router matches on (`r.URL.Path`, the path as `net/http` decoded
it), and the path variables the router attaches (`mux.Vars(r)`). -/
structure Request where
  method : String
  path : String
  vars : List (String × String)

/-- Go `mux.Vars(r)[name]`: indexing a `map[string]string`, the empty string
when the variable is absent. -/
def Request.Vars (r : Request) (name : String) : String :=
  match r.vars.lookup name with
  | some v => v
  | none => ""

/-- An `http.ResponseWriter`: the response headers, the status once
`WriteHeader` has run (`none` before), and the body written so far. -/
structure ResponseWriter where
  header : List (String × String)
  status : Option Nat
  body : String
  deriving DecidableEq

/-- The writer a handler receives. -/
def ResponseWriter.fresh : ResponseWriter := ⟨[], none, ""⟩

/-- Go `w.WriteHeader(code)`: the first call fixes the status. -/
def ResponseWriter.WriteHeader (w : ResponseWriter) (code : Nat) : ResponseWriter :=
  match w.status with
  | some _ => w
  | none => { w with status := some code }

/-- Go `w.Header().Set(key, value)`: replaces the header; headers set after the
status line has been written are not sent. -/
def ResponseWriter.SetHeader (w : ResponseWriter) (key value : String) : ResponseWriter :=
  match w.status with
  | some _ => w
  | none => { w with header := (key, value) :: w.header.filter (fun kv => kv.1 ≠ key) }

/-- Go `w.Write(b)`: writes status 200 first when no status was written; a 204
or 304 response takes no body. -/
def ResponseWriter.Write (w : ResponseWriter) (b : String) : ResponseWriter :=
  let w1 := w.WriteHeader 200
  if w1.status = some 204 ∨ w1.status = some 304 then w1 else { w1 with body := w1.body ++ b }

/-- Status of the response sent when the handler returns: 200 when the
handler never wrote one. -/
def ResponseWriter.statusCode (w : ResponseWriter) : Nat :=
  match w.status with
  | some c => c
  | none => 200

/-- Value of a response header, if set. -/
def ResponseWriter.headerValue (w : ResponseWriter) (key : String) : Option String :=
  w.header.lookup key

/-- Go `http.Error(w, msg, code)`: plain-text headers, the status, then the
message and a newline. -/
def httpError (w : ResponseWriter) (msg : String) (code : Nat) : ResponseWriter :=
  (((w.SetHeader "Content-Type" "text/plain; charset=utf-8").SetHeader
    "X-Content-Type-Options" "nosniff").WriteHeader code).Write (msg ++ "\n")

/-- Base-10 text of an `int`, as `encoding/json` writes an integer field:
the digits, with a leading minus sign for a negative value. -/
def formatInt : Int → String
  | .ofNat n => Nat.repr n
  | .negSucc n => "-" ++ Nat.repr (n + 1)

/-- Go `json.Marshal` of the anonymous struct whose one field `Count int` is
tagged `count`: the object with the one field `count`; marshalling an `int`
field has no error case. -/
def jsonMarshalCount (count : Int) : Except String String :=
  .ok ("\x7b\"count\":" ++ formatInt count ++ "\x7d")

/-- Value of a decimal digit character, `none` for any other character. -/
def digitValue (c : Char) : Option Nat :=
  if '0' ≤ c ∧ c ≤ '9' then some (c.toNat - '0'.toNat) else none

/-- Number written by a run of decimal digits, most significant first,
continuing from the value `acc` read so far; `none` when a character is not a
digit. -/
def readDigits : Nat → List Char → Option Nat
  | acc, [] => some acc
  | acc, c :: cs =>
    match digitValue c with
    | some d => readDigits (acc * 10 + d) cs
    | none => none

/-- Integer that a text denotes as a decimal rendering: an optional minus
sign, then either the single digit `0` or digits that do not start with `0`;
no sign on zero, no blank, no other character.  It is `none` for any other
text. -/
def readDecimal (cs : List Char) : Option Int :=
  match cs with
  | [] => none
  | c :: rest =>
    if c = '-' then
      if rest = [] ∨ rest.head? = some '0' then none
      else (readDigits 0 rest).map (fun n => -(n : Int))
    else if c = '0' ∧ rest ≠ [] then none
    else (readDigits 0 (c :: rest)).map (fun n => (n : Int))

/-- A tracker with `foo` tracked twelve times and `bar` once. -/
def sampleTracker : ServiceTracker :=
  trackTimes "foo" 12 (NewServiceTracker.TrackService "bar")

/-- The `API` struct: it owns the tracker. -/
structure API where
  tracker : ServiceTracker

/-- Go `NewAPI`: an API over a new tracker. -/
def NewAPI : API := ⟨NewServiceTracker⟩

/-- Go `TrackServiceHandler`: reads the path variable, tracks it, writes 204. -/
def API.TrackServiceHandler (a : API) (w : ResponseWriter) (r : Request) : API × ResponseWriter :=
  let service := r.Vars "service"
  let a1 : API := ⟨a.tracker.TrackService service⟩
  (a1, w.WriteHeader 204)

/-- Go `GetServiceCountHandler`: reads the path variable, gets its count,
marshals it; on a marshalling error answers 500 with the error text, else
sets the content type and writes the JSON. -/
def API.GetServiceCountHandler (a : API) (w : ResponseWriter) (r : Request) : API × ResponseWriter :=
  let service := r.Vars "service"
  let count := a.tracker.GetServiceCount service
  match jsonMarshalCount count with
  | .error err => (a, httpError w err 500)
  | .ok json => (a, (w.SetHeader "Content-Type" "application/json").Write json)

/-! ## Router and route table of `main` -/

/-- The two handlers `main` registers. -/
inductive Handler where
  | trackService
  | getServiceCount
  deriving DecidableEq

/-- A piece of a route's path template: literal text, or a `{name}` variable,
which stands for one non-empty run of characters other than `/`. -/
inductive Part where
  | lit (text : String)
  | var (name : String)
  deriving DecidableEq

/-- A route: path template, allowed methods, handler. -/
structure Route where
  template : List Part
  methods : List String
  handler : Handler

/-- Modelled from the spec: the router is the imported package
`github.com/gorilla/mux`, whose code is not part of the repository; the spec
has `{service}` as "a required, non-empty URL path segment, matched
literally".  Matches a whole path against a template and returns the
variables bound. -/
def matchParts : List Part → List Char → Option (List (String × String))
  | [], [] => some []
  | [], _ :: _ => none
  | .lit l :: ps, cs =>
    if l.data.isPrefixOf cs then matchParts ps (cs.drop l.data.length) else none
  | .var v :: ps, cs =>
    let seg := cs.takeWhile (fun c => c ≠ '/')
    if seg = [] then none
    else (matchParts ps (cs.dropWhile (fun c => c ≠ '/'))).map (fun vs => (v, String.mk seg) :: vs)

/-- Outcome of trying one route. -/
inductive RouteResult where
  | matched (h : Handler) (vars : List (String × String))
  | methodMismatch
  | noMatch
  deriving DecidableEq

/-- Modelled from the spec: one route of the imported router tried against a
request.  The path is matched first; a route whose path matches but whose
method list lacks the request's method reports a method mismatch. -/
def Route.Match (rt : Route) (r : Request) : RouteResult :=
  match matchParts rt.template r.path.data with
  | none => .noMatch
  | some vars => if r.method ∈ rt.methods then .matched rt.handler vars else .methodMismatch

/-- Outcome of routing a request. -/
inductive MatchResult where
  | found (h : Handler) (vars : List (String × String))
  | methodNotAllowed
  | notFound
  deriving DecidableEq

/-- Modelled from the spec: the imported router tries the routes in
registration order and takes the first that matches; when none does, "wrong
method, missing route" get "the router's default 404/405 behavior": 405 when
some route matched the path but not the method (`mismatch`), 404 otherwise. -/
def Router.Match : List Route → Request → Bool → MatchResult
  | [], _, mismatch => if mismatch then .methodNotAllowed else .notFound
  | rt :: rts, r, mismatch =>
    match rt.Match r with
    | .matched h vars => .found h vars
    | .methodMismatch => Router.Match rts r true
    | .noMatch => Router.Match rts r mismatch

/-- The route table built in `main`:
`r.HandleFunc("/track/{service}", api.TrackServiceHandler).Methods("POST")` and
`r.HandleFunc("/count/{service}", api.GetServiceCountHandler).Methods("GET")`. -/
def mainRoutes : List Route :=
  [ ⟨[.lit "/track/", .var "service"], ["POST"], .trackService⟩,
    ⟨[.lit "/count/", .var "service"], ["GET"], .getServiceCount⟩ ]

/-- Calling a registered handler. -/
def Handler.serve (h : Handler) (a : API) (w : ResponseWriter) (r : Request) :
    API × ResponseWriter :=
  match h with
  | .trackService => a.TrackServiceHandler w r
  | .getServiceCount => a.GetServiceCountHandler w r

/-- Cuts a path at every `/`: the runs of characters between the slashes,
empty runs included. -/
def splitSlash : List Char → List (List Char)
  | [] => [[]]
  | c :: cs =>
    if c = '/' then [] :: splitSlash cs
    else
      match splitSlash cs with
      | [] => [[c]]
      | seg :: rest => (c :: seg) :: rest

/-- The elements of a rooted path that cleaning keeps, in order: empty and
`.` elements are dropped, a `..` element drops the kept element before it
(or nothing, at the root).  `kept` holds the elements kept so far, last
first. -/
def cleanSegments : List (List Char) → List (List Char) → List (List Char)
  | [], kept => kept.reverse
  | seg :: rest, kept =>
    if seg = [] ∨ seg = ['.'] then cleanSegments rest kept
    else if seg = ['.', '.'] then cleanSegments rest kept.tail
    else cleanSegments rest (seg :: kept)

/-- Writes path elements back as a rooted path: a `/` before each. -/
def joinSlash : List (List Char) → List Char
  | [] => []
  | seg :: rest => '/' :: (seg ++ joinSlash rest)

/-- Go `path.Clean` on a rooted path: single slashes, no `.` element, every
`..` resolved against the element before it, no trailing slash; the root
alone is `/`. -/
def pathClean (p : List Char) : List Char :=
  match cleanSegments (splitSlash p) [] with
  | [] => ['/']
  | seg :: rest => joinSlash (seg :: rest)

/-- Canonical form of a request path as the imported router computes it
(`cleanPath` of `github.com/gorilla/mux`, which is not part of the
repository): the empty path is `/`, a path is rooted with a leading `/`,
cleaned by `path.Clean`, and keeps a trailing slash it had. -/
def cleanPath (p : String) : String :=
  if p.data = [] then "/"
  else
    let q := if p.data.head? = some '/' then p.data else '/' :: p.data
    let np := pathClean q
    if q.getLast? = some '/' ∧ np ≠ ['/'] then String.mk (np ++ ['/']) else String.mk np

/-- Modelled from the spec: `ServeHTTP` of the router `main` builds with
`mux.NewRouter()`; the router is an imported package whose code is not part
of the repository.  A router built that way first compares the request path
with its canonical form and, when they differ, answers 301 (moved
permanently) toward the canonical path without trying any route; the
`Location` header of that answer is not carried here.  Otherwise the matched
handler runs on the request with its path variables attached, and when no
route matches the router answers 405 (empty body) or 404 itself ("the
router's default 404/405 behavior") and the API is not touched. -/
def ServeHTTP (a : API) (r : Request) : API × ResponseWriter :=
  if cleanPath r.path ≠ r.path then (a, ResponseWriter.fresh.WriteHeader 301)
  else
    match Router.Match mainRoutes r false with
    | .found h vars => h.serve a ResponseWriter.fresh { r with vars := vars }
    | .methodNotAllowed => (a, ResponseWriter.fresh.WriteHeader 405)
    | .notFound => (a, httpError ResponseWriter.fresh "404 page not found" 404)

/-- Requests served one after another; the responses in order. -/
def serveAll : API → List Request → API × List ResponseWriter
  | a, [] => (a, [])
  | a, r :: rs =>
    let (a1, w) := ServeHTTP a r
    let (a2, ws) := serveAll a1 rs
    (a2, w :: ws)

/-- The request `POST /track/x`: method POST, URL path `/track/x`. -/
def postTrack (x : String) : Request := ⟨"POST", "/track/" ++ x, []⟩

/-- The request `GET /count/x`: method GET, URL path `/count/x`. -/
def getCount (x : String) : Request := ⟨"GET", "/count/" ++ x, []⟩

/-- The request `GET /track/x`: method GET, URL path `/track/x`. -/
def getTrack (x : String) : Request := ⟨"GET", "/track/" ++ x, []⟩

/-- One non-empty path segment: a name with at least one character and no
`/`. -/
def isSegment (x : String) : Prop := x.data ≠ [] ∧ '/' ∉ x.data

instance (x : String) : Decidable (isSegment x) := by
  unfold isSegment; exact inferInstance

/-- Body of a count response for the value `n`: `n` in base 10 inside the
one-field object, no whitespace. -/
def countBody (n : Nat) : String := "\x7b\"count\":" ++ Nat.repr n ++ "\x7d"

/-! ## Lemmas on `int` arithmetic and the map -/

theorem wrapInt_range (x : Int) : minInt ≤ wrapInt x ∧ wrapInt x ≤ maxInt := by
  unfold wrapInt minInt maxInt
  have h1 : 0 ≤ (x + 2 ^ 63) % (2 ^ 64 : Int) := Int.emod_nonneg _ (by norm_num)
  have h2 : (x + 2 ^ 63) % (2 ^ 64 : Int) < 2 ^ 64 := Int.emod_lt_of_pos _ (by norm_num)
  constructor <;> omega

theorem wrapInt_of_range (x : Int) (h1 : minInt ≤ x) (h2 : x ≤ maxInt) : wrapInt x = x := by
  unfold wrapInt
  unfold minInt at h1
  unfold maxInt at h2
  rw [Int.emod_eq_of_lt (by omega) (by omega)]
  omega

theorem wrapInt_succ (x : Int) : wrapInt (wrapInt x + 1) = wrapInt (x + 1) := by
  unfold wrapInt
  omega

theorem mapIndex_range (st : ServiceTracker) (s : String) :
    minInt ≤ mapIndex st.services s ∧ mapIndex st.services s ≤ maxInt := by
  unfold mapIndex
  cases h : st.services s with
  | none => simp only []; unfold minInt maxInt; constructor <;> norm_num
  | some v => exact st.typed s v h

theorem count_range (st : ServiceTracker) (s : String) :
    minInt ≤ st.GetServiceCount s ∧ st.GetServiceCount s ≤ maxInt :=
  mapIndex_range st s

theorem count_new (s : String) : NewServiceTracker.GetServiceCount s = 0 := rfl

theorem count_track_same (st : ServiceTracker) (s : String) :
    (st.TrackService s).GetServiceCount s = wrapInt (st.GetServiceCount s + 1) := by
  simp [ServiceTracker.GetServiceCount, ServiceTracker.TrackService, mapIndex]

theorem count_track_other (st : ServiceTracker) (a b : String) (h : a ≠ b) :
    (st.TrackService a).GetServiceCount b = st.GetServiceCount b := by
  have hb : ¬ b = a := fun e => h e.symm
  simp [ServiceTracker.GetServiceCount, ServiceTracker.TrackService, mapIndex, hb]

theorem count_track_below (st : ServiceTracker) (s : String)
    (h : st.GetServiceCount s < maxInt) :
    (st.TrackService s).GetServiceCount s = st.GetServiceCount s + 1 := by
  rw [count_track_same]
  have hr := count_range st s
  apply wrapInt_of_range
  · unfold minInt at *; omega
  · omega

theorem count_trackTimes (s : String) (n : Nat) (st : ServiceTracker) :
    (trackTimes s n st).GetServiceCount s = wrapInt (st.GetServiceCount s + n) := by
  induction n generalizing st with
  | zero =>
    have hr := count_range st s
    simp only [trackTimes, Nat.cast_zero, add_zero]
    exact (wrapInt_of_range _ hr.1 hr.2).symm
  | succ n ih =>
    simp only [trackTimes]
    rw [ih, count_track_same]
    have h := wrapInt_succ (st.GetServiceCount s + n)
    unfold wrapInt at *
    push_cast
    omega

theorem count_reach_snoc (calls : List Call) (c : Call) :
    reach (calls ++ [c]) = (reach calls).call c := by
  simp [reach, List.foldl_append]

theorem tracksOf_snoc (s : String) (calls : List Call) (c : Call) :
    tracksOf s (calls ++ [c]) = tracksOf s calls + (if c = Call.track s then 1 else 0) := by
  unfold tracksOf
  rw [List.count_append]
  by_cases h : c = Call.track s
  · simp [h]
  · simp [h, List.count_cons]

theorem count_reach (s : String) (calls : List Call) :
    (reach calls).GetServiceCount s = wrapInt (tracksOf s calls) := by
  induction calls using List.reverseRecOn with
  | nil => simp [reach, tracksOf, count_new, wrapInt]
  | append_singleton calls c ih =>
    rw [count_reach_snoc, tracksOf_snoc]
    cases c with
    | get t =>
      simp only [ServiceTracker.call, reduceCtorEq, if_false, add_zero]
      exact ih
    | track t =>
      by_cases ht : t = s
      · subst ht
        simp only [ServiceTracker.call, if_true]
        rw [count_track_same, ih]
        have h := wrapInt_succ (tracksOf t calls)
        push_cast
        exact h
      · have hne : Call.track t ≠ Call.track s := by
          intro e; injection e with e; exact ht e
        simp only [ServiceTracker.call, hne, if_false, add_zero]
        rw [count_track_other _ _ _ ht]
        exact ih

theorem count_trackAll_other (s : String) (names : List String) (st : ServiceTracker)
    (h : s ∉ names) : (trackAll st names).GetServiceCount s = st.GetServiceCount s := by
  induction names generalizing st with
  | nil => rfl
  | cons t ts ih =>
    have ht : t ≠ s := fun e => h (by simp [e])
    have hts : s ∉ ts := fun e => h (by simp [e])
    simp only [trackAll, List.foldl_cons]
    have h1 := ih (st.TrackService t) hts
    simp only [trackAll] at h1
    rw [h1, count_track_other _ _ _ ht]

theorem wrapInt_natCast (n : Nat) (h : (n : Int) ≤ maxInt) : wrapInt n = n := by
  apply wrapInt_of_range _ _ h
  unfold minInt
  omega

theorem tracksOf_replicate (s : String) (n : Nat) :
    tracksOf s (List.replicate n (Call.track s)) = n := by
  unfold tracksOf
  exact List.count_replicate_self _ n

theorem matchParts_var (v : String) (x : String) (hx : isSegment x) :
    matchParts [.var v] x.data = some [(v, x)] := by
  obtain ⟨hne, hslash⟩ := hx
  have htake : x.data.takeWhile (fun c => decide (c ≠ '/')) = x.data := by
    rw [List.takeWhile_eq_self_iff]
    intro c hc
    have : c ≠ '/' := fun e => hslash (e ▸ hc)
    simpa using this
  have hdrop : x.data.dropWhile (fun c => decide (c ≠ '/')) = [] := by
    rw [List.dropWhile_eq_nil_iff]
    intro c hc
    have : c ≠ '/' := fun e => hslash (e ▸ hc)
    simpa using this
  simp only [matchParts, htake, hdrop, hne, if_false, Option.map_some']

theorem match_track_path (x : String) :
    matchParts [.lit "/track/", .var "service"] ("/track/" ++ x).data
      = matchParts [.var "service"] x.data := by
  have hd : ("/track/" ++ x).data = '/' :: 't' :: 'r' :: 'a' :: 'c' :: 'k' :: '/' :: x.data := by
    rw [String.data_append]; rfl
  have hl : ("/track/" : String).data = ['/', 't', 'r', 'a', 'c', 'k', '/'] := rfl
  rw [hd]
  simp only [matchParts, hl]
  simp

theorem match_count_path (x : String) :
    matchParts [.lit "/count/", .var "service"] ("/count/" ++ x).data
      = matchParts [.var "service"] x.data := by
  have hd : ("/count/" ++ x).data = '/' :: 'c' :: 'o' :: 'u' :: 'n' :: 't' :: '/' :: x.data := by
    rw [String.data_append]; rfl
  have hl : ("/count/" : String).data = ['/', 'c', 'o', 'u', 'n', 't', '/'] := rfl
  rw [hd]
  simp only [matchParts, hl]
  simp

theorem match_count_on_track (x : String) :
    matchParts [.lit "/count/", .var "service"] ("/track/" ++ x).data = none := by
  have hd : ("/track/" ++ x).data = '/' :: 't' :: 'r' :: 'a' :: 'c' :: 'k' :: '/' :: x.data := by
    rw [String.data_append]; rfl
  have hl : ("/count/" : String).data = ['/', 'c', 'o', 'u', 'n', 't', '/'] := rfl
  rw [hd]
  simp only [matchParts, hl]
  simp

theorem match_track_on_count (x : String) :
    matchParts [.lit "/track/", .var "service"] ("/count/" ++ x).data = none := by
  have hd : ("/count/" ++ x).data = '/' :: 'c' :: 'o' :: 'u' :: 'n' :: 't' :: '/' :: x.data := by
    rw [String.data_append]; rfl
  have hl : ("/track/" : String).data = ['/', 't', 'r', 'a', 'c', 'k', '/'] := rfl
  rw [hd]
  simp only [matchParts, hl]
  simp

theorem route_post_track (x : String) (hx : isSegment x) :
    Router.Match mainRoutes (postTrack x) false = .found .trackService [("service", x)] := by
  simp only [Router.Match, mainRoutes, Route.Match, postTrack, match_track_path,
    matchParts_var _ x hx]
  simp

theorem route_get_count (x : String) (hx : isSegment x) :
    Router.Match mainRoutes (getCount x) false = .found .getServiceCount [("service", x)] := by
  simp only [Router.Match, mainRoutes, Route.Match, getCount, match_track_on_count,
    match_track_on_count, match_count_path, matchParts_var _ x hx]
  simp

theorem route_get_track (s : String) :
    Router.Match mainRoutes (getTrack s) false = .methodNotAllowed ∨
      Router.Match mainRoutes (getTrack s) false = .notFound := by
  simp only [Router.Match, mainRoutes, Route.Match, getTrack, match_track_path,
    match_count_on_track]
  cases matchParts [.var "service"] s.data with
  | none => right; rfl
  | some vars => left; simp

theorem splitSlash_segment (x : List Char) (hx : '/' ∉ x) : splitSlash x = [x] := by
  induction x with
  | nil => rfl
  | cons c cs ih =>
    have hc : c ≠ '/' := fun e => hx (by simp [e])
    have hcs : '/' ∉ cs := fun e => hx (by simp [e])
    simp only [splitSlash, hc, if_false, ih hcs]

theorem splitSlash_append (w rest : List Char) (hw : '/' ∉ w) :
    splitSlash (w ++ '/' :: rest) = w :: splitSlash rest := by
  induction w with
  | nil => simp [splitSlash]
  | cons c cs ih =>
    have hc : c ≠ '/' := fun e => hw (by simp [e])
    have hcs : '/' ∉ cs := fun e => hw (by simp [e])
    have e : splitSlash (c :: (cs ++ '/' :: rest)) = (c :: cs) :: splitSlash rest := by
      rw [splitSlash, if_neg hc, ih hcs]
    exact e

theorem pathClean_two (w x : List Char) (hw : '/' ∉ w) (hw0 : w ≠ [])
    (hw1 : w ≠ ['.']) (hw2 : w ≠ ['.', '.']) (hx : '/' ∉ x) (hx0 : x ≠ [])
    (hx1 : x ≠ ['.']) (hx2 : x ≠ ['.', '.']) :
    pathClean ('/' :: (w ++ '/' :: x)) = '/' :: (w ++ '/' :: x) := by
  have hs : splitSlash ('/' :: (w ++ '/' :: x)) = [[], w, x] := by
    rw [splitSlash, if_pos rfl, splitSlash_append w x hw, splitSlash_segment x hx]
  unfold pathClean
  rw [hs]
  simp [cleanSegments, joinSlash, hw0, hw1, hw2, hx0, hx1, hx2]

theorem getLast_not_slash (l x : List Char) (hx : '/' ∉ x) (hx0 : x ≠ []) :
    (l ++ x).getLast? ≠ some '/' := by
  intro h
  rw [List.getLast?_append_of_ne_nil l hx0] at h
  exact hx (List.mem_of_getLast?_eq_some h)

theorem data_ne_of_ne (x y : String) (h : x ≠ y) : x.data ≠ y.data :=
  fun e => h (String.ext e)

/-- A two-element path whose elements are plain names is its own canonical
form. -/
theorem cleanPath_two (w x : String) (hw : isSegment w) (hw1 : w ≠ ".") (hw2 : w ≠ "..")
    (hx : isSegment x) (hx1 : x ≠ ".") (hx2 : x ≠ "..") :
    cleanPath ("/" ++ w ++ "/" ++ x) = "/" ++ w ++ "/" ++ x := by
  have hd : ("/" ++ w ++ "/" ++ x).data = '/' :: (w.data ++ '/' :: x.data) := by
    simp only [String.data_append]
    show ['/'] ++ w.data ++ ['/'] ++ x.data = _
    simp
  have hlast : ('/' :: (w.data ++ '/' :: x.data)).getLast? ≠ some '/' := by
    have h := getLast_not_slash ('/' :: (w.data ++ ['/'])) x.data hx.2 hx.1
    simpa using h
  have hc := pathClean_two w.data x.data hw.2 hw.1 (data_ne_of_ne _ _ hw1)
    (data_ne_of_ne _ _ hw2) hx.2 hx.1 (data_ne_of_ne _ _ hx1) (data_ne_of_ne _ _ hx2)
  apply String.ext
  simp only [cleanPath, hd, List.head?_cons, if_true, hc]
  simp [hlast]

theorem cleanPath_track (x : String) (hx : isSegment x) (hx1 : x ≠ ".") (hx2 : x ≠ "..") :
    cleanPath ("/track/" ++ x) = "/track/" ++ x := by
  have h := cleanPath_two "track" x (by decide) (by decide) (by decide) hx hx1 hx2
  have e : "/" ++ "track" ++ "/" ++ x = "/track/" ++ x := by
    apply String.ext; simp only [String.data_append]; rfl
  rw [e] at h
  exact h

theorem cleanPath_count (x : String) (hx : isSegment x) (hx1 : x ≠ ".") (hx2 : x ≠ "..") :
    cleanPath ("/count/" ++ x) = "/count/" ++ x := by
  have h := cleanPath_two "count" x (by decide) (by decide) (by decide) hx hx1 hx2
  have e : "/" ++ "count" ++ "/" ++ x = "/count/" ++ x := by
    apply String.ext; simp only [String.data_append]; rfl
  rw [e] at h
  exact h

theorem serve_post_track (a : API) (x : String) (hx : isSegment x) (hx1 : x ≠ ".")
    (hx2 : x ≠ "..") :
    ServeHTTP a (postTrack x)
      = (⟨a.tracker.TrackService x⟩, ResponseWriter.fresh.WriteHeader 204) := by
  have hc : cleanPath (postTrack x).path = (postTrack x).path := cleanPath_track x hx hx1 hx2
  simp only [ServeHTTP, hc, ne_eq, not_true_eq_false, if_false, route_post_track x hx,
    Handler.serve, API.TrackServiceHandler, Request.Vars]
  simp

theorem serve_get_count (a : API) (x : String) (hx : isSegment x) (hx1 : x ≠ ".")
    (hx2 : x ≠ "..") :
    ServeHTTP a (getCount x)
      = a.GetServiceCountHandler ResponseWriter.fresh
          { getCount x with vars := [("service", x)] } := by
  have hc : cleanPath (getCount x).path = (getCount x).path := cleanPath_count x hx hx1 hx2
  simp only [ServeHTTP, hc, ne_eq, not_true_eq_false, if_false, route_get_count x hx,
    Handler.serve]

theorem serveAll_posts (x : String) (hx : isSegment x) (hx1 : x ≠ ".") (hx2 : x ≠ "..")
    (n : Nat) (a : API) :
    serveAll a (List.replicate n (postTrack x))
      = (⟨trackTimes x n a.tracker⟩,
          List.replicate n (ResponseWriter.fresh.WriteHeader 204)) := by
  induction n generalizing a with
  | zero => rfl
  | succ n ih =>
    simp only [List.replicate_succ, serveAll, serve_post_track a x hx hx1 hx2, ih, trackTimes]

theorem formatInt_natCast (n : Nat) : formatInt (n : Int) = Nat.repr n := rfl

theorem handler_get_body (a : API) (r : Request) :
    (a.GetServiceCountHandler ResponseWriter.fresh r).2.body
      = "\x7b\"count\":" ++ formatInt (a.tracker.GetServiceCount (r.Vars "service")) ++ "\x7d" := by
  simp [API.GetServiceCountHandler, jsonMarshalCount, ResponseWriter.Write,
    ResponseWriter.SetHeader, ResponseWriter.WriteHeader, ResponseWriter.fresh]

theorem handler_get_status (a : API) (r : Request) :
    (a.GetServiceCountHandler ResponseWriter.fresh r).2.statusCode = 200 := by
  simp [API.GetServiceCountHandler, jsonMarshalCount, ResponseWriter.Write,
    ResponseWriter.SetHeader, ResponseWriter.WriteHeader, ResponseWriter.fresh,
    ResponseWriter.statusCode]

theorem route_get_track_segment (s : String) (hs : isSegment s) :
    Router.Match mainRoutes (getTrack s) false = .methodNotAllowed := by
  simp only [Router.Match, mainRoutes, Route.Match, getTrack, match_track_path,
    match_count_on_track, matchParts_var _ s hs]
  simp

theorem route_get_track_never (s : String) (vars : List (String × String)) :
    Router.Match mainRoutes (getTrack s) false ≠ .found .trackService vars := by
  rcases route_get_track s with h | h <;> rw [h] <;> simp

theorem serve_get_track (a : API) (s : String) :
    (cleanPath (getTrack s).path ≠ (getTrack s).path ∧
        ServeHTTP a (getTrack s) = (a, ResponseWriter.fresh.WriteHeader 301)) ∨
      (cleanPath (getTrack s).path = (getTrack s).path ∧
        Router.Match mainRoutes (getTrack s) false = .methodNotAllowed ∧
        ServeHTTP a (getTrack s) = (a, ResponseWriter.fresh.WriteHeader 405)) ∨
      (cleanPath (getTrack s).path = (getTrack s).path ∧
        Router.Match mainRoutes (getTrack s) false = .notFound ∧
        ServeHTTP a (getTrack s)
          = (a, httpError ResponseWriter.fresh "404 page not found" 404)) := by
  by_cases hc : cleanPath (getTrack s).path = (getTrack s).path
  · rcases route_get_track s with h | h
    · right; left
      refine ⟨hc, h, ?_⟩
      simp only [ServeHTTP, hc, ne_eq, not_true_eq_false, if_false, h]
    · right; right
      refine ⟨hc, h, ?_⟩
      simp only [ServeHTTP, hc, ne_eq, not_true_eq_false, if_false, h]
  · left
    refine ⟨hc, ?_⟩
    simp only [ServeHTTP, ne_eq, hc, not_false_eq_true, if_true]

theorem digitValue_digitChar (d : Nat) (h : d < 10) :
    digitValue (Nat.digitChar d) = some d := by
  interval_cases d <;> decide

theorem digitChar_head (d : Nat) (h0 : 0 < d) (h : d < 10) :
    Nat.digitChar d ≠ '0' ∧ Nat.digitChar d ≠ '-' := by
  interval_cases d <;> decide

theorem toDigitsCore_append (fuel n : Nat) (ds : List Char) :
    Nat.toDigitsCore 10 fuel n ds = Nat.toDigitsCore 10 fuel n [] ++ ds := by
  induction fuel generalizing n ds with
  | zero => simp [Nat.toDigitsCore]
  | succ fuel ih =>
    simp only [Nat.toDigitsCore]
    by_cases h : n / 10 = 0
    · simp [h]
    · simp only [h, if_false]
      rw [ih (n / 10) (Nat.digitChar (n % 10) :: ds), ih (n / 10) [Nat.digitChar (n % 10)]]
      simp

theorem toDigitsCore_step (fuel n : Nat) (h : n / 10 ≠ 0) :
    Nat.toDigitsCore 10 (fuel + 1) n []
      = Nat.toDigitsCore 10 fuel (n / 10) [] ++ [Nat.digitChar (n % 10)] := by
  simp only [Nat.toDigitsCore, h, if_false]
  exact toDigitsCore_append fuel (n / 10) [Nat.digitChar (n % 10)]

theorem toDigitsCore_small (fuel n : Nat) (h : n / 10 = 0) :
    Nat.toDigitsCore 10 (fuel + 1) n [] = [Nat.digitChar n] := by
  have hn : n % 10 = n := Nat.mod_eq_of_lt (by omega)
  simp only [Nat.toDigitsCore, h, if_true, hn]

theorem readDigits_append (acc : Nat) (xs ys : List Char) :
    readDigits acc (xs ++ ys) = (readDigits acc xs).bind (fun v => readDigits v ys) := by
  induction xs generalizing acc with
  | nil => rfl
  | cons c cs ih =>
    simp only [List.cons_append, readDigits]
    cases digitValue c with
    | none => rfl
    | some d => exact ih _

theorem readDigits_toDigitsCore (fuel n : Nat) (h : n < fuel) :
    readDigits 0 (Nat.toDigitsCore 10 fuel n []) = some n := by
  induction fuel generalizing n with
  | zero => omega
  | succ fuel ih =>
    by_cases hq : n / 10 = 0
    · rw [toDigitsCore_small fuel n hq]
      simp [readDigits, digitValue_digitChar n (by omega)]
    · rw [toDigitsCore_step fuel n hq, readDigits_append, ih (n / 10) (by omega)]
      simp only [Option.some_bind, readDigits, digitValue_digitChar (n % 10) (by omega)]
      congr 1
      omega

theorem toDigitsCore_head (fuel n : Nat) (h0 : 0 < n) (h : n < fuel) :
    ∃ d rest, Nat.toDigitsCore 10 fuel n [] = Nat.digitChar d :: rest ∧ 0 < d ∧ d < 10 := by
  induction fuel generalizing n with
  | zero => omega
  | succ fuel ih =>
    by_cases hq : n / 10 = 0
    · exact ⟨n, [], toDigitsCore_small fuel n hq, h0, by omega⟩
    · obtain ⟨d, rest, e, hd0, hd⟩ := ih (n / 10) (by omega) (by omega)
      refine ⟨d, rest ++ [Nat.digitChar (n % 10)], ?_, hd0, hd⟩
      rw [toDigitsCore_step fuel n hq, e]
      rfl

theorem readDecimal_repr_pos (n : Nat) (h0 : 0 < n) :
    (readDigits 0 (Nat.repr n).data = some n) ∧
      ∃ c rest, (Nat.repr n).data = c :: rest ∧ c ≠ '0' ∧ c ≠ '-' := by
  have hd : (Nat.repr n).data = Nat.toDigitsCore 10 (n + 1) n [] := rfl
  rw [hd]
  refine ⟨readDigits_toDigitsCore (n + 1) n (by omega), ?_⟩
  obtain ⟨d, rest, e, hd0, hd⟩ := toDigitsCore_head (n + 1) n h0 (by omega)
  exact ⟨Nat.digitChar d, rest, e, (digitChar_head d hd0 hd).1, (digitChar_head d hd0 hd).2⟩

theorem readDecimal_formatInt (v : Int) : readDecimal (formatInt v).data = some v := by
  cases v with
  | ofNat n =>
    show readDecimal (Nat.repr n).data = some (Int.ofNat n)
    by_cases h0 : n = 0
    · subst h0; decide
    · obtain ⟨hr, c, rest, e, hc0, hcm⟩ := readDecimal_repr_pos n (by omega)
      rw [e] at hr
      rw [e]
      simp only [readDecimal, hcm, if_false, hc0, false_and, hr, Option.map_some']
      rfl
  | negSucc n =>
    show readDecimal ("-" ++ Nat.repr (n + 1)).data = some (Int.negSucc n)
    obtain ⟨hr, c, rest, e, hc0, hcm⟩ := readDecimal_repr_pos (n + 1) (by omega)
    have hd : ("-" ++ Nat.repr (n + 1)).data = '-' :: (Nat.repr (n + 1)).data := by
      rw [String.data_append]; rfl
    rw [hd]
    have hne : (Nat.repr (n + 1)).data ≠ [] := by rw [e]; simp
    have hh : (Nat.repr (n + 1)).data.head? ≠ some '0' := by
      rw [e]; simpa using hc0
    simp only [readDecimal, if_true, hne, hh, or_self, if_false, hr, Option.map_some']
    rfl

/-! ## Counter store: the claims -/

/-- C1 (amended): for every service name `s` and every natural number `n` up
to the largest `int`, `2^63 - 1`, starting from a tracker made by
`NewServiceTracker`, calling `TrackService(s)` `n` times and then
`GetServiceCount(s)` returns exactly `n`. -/
theorem trackService_n_times (s : String) (n : Nat) (h : (n : Int) ≤ maxInt) :
    (trackTimes s n NewServiceTracker).GetServiceCount s = n := by
  rw [count_trackTimes, count_new, zero_add]
  exact wrapInt_natCast n h

/-- C1, witness: three `TrackService("foo")` calls give the count 3. -/
theorem trackService_n_times_witness :
    ((3 : Nat) : Int) ≤ maxInt ∧
      (trackTimes "foo" 3 NewServiceTracker).GetServiceCount "foo" = ((3 : Nat) : Int) :=
  ⟨by decide, trackService_n_times "foo" 3 (by decide)⟩

/-- C1, counterexample: after `2^63` calls of `TrackService("s")` on a new
tracker, `GetServiceCount("s")` returns `-2^63`, not `2^63`. -/
theorem trackService_n_times_overflow :
    (trackTimes "s" (2 ^ 63) NewServiceTracker).GetServiceCount "s" = -(2 ^ 63) ∧
      (trackTimes "s" (2 ^ 63) NewServiceTracker).GetServiceCount "s"
        ≠ ((2 ^ 63 : Nat) : Int) := by
  have h : (trackTimes "s" (2 ^ 63) NewServiceTracker).GetServiceCount "s" = -(2 ^ 63) := by
    rw [count_trackTimes, count_new, zero_add]
    unfold wrapInt
    norm_num
  rw [h]
  constructor
  · rfl
  · norm_num

/-- C2 (amended): for every tracker state and every service name `s`, after
`TrackService(s)` the value of `GetServiceCount(s)` is exactly one more than
it was before the call whenever the value before is below the largest `int`,
`2^63 - 1`, and is `-2^63` when the value before is `2^63 - 1`; in
particular, when `s` has no entry before the call, the entry is created and
`GetServiceCount(s)` returns 1. -/
theorem trackService_adds_one (st : ServiceTracker) (s : String) :
    (st.GetServiceCount s < maxInt →
        (st.TrackService s).GetServiceCount s = st.GetServiceCount s + 1) ∧
      (st.GetServiceCount s = maxInt → (st.TrackService s).GetServiceCount s = minInt) ∧
      (st.services s = none →
        (st.TrackService s).services s = some 1 ∧ (st.TrackService s).GetServiceCount s = 1) := by
  refine ⟨count_track_below st s, ?_, ?_⟩
  · intro h
    rw [count_track_same, h]
    unfold wrapInt maxInt minInt
    norm_num
  · intro h
    have h0 : st.GetServiceCount s = 0 := by
      simp [ServiceTracker.GetServiceCount, mapIndex, h]
    have h1 : (st.TrackService s).GetServiceCount s = 1 := by
      rw [count_track_below st s (by rw [h0]; unfold maxInt; norm_num), h0]
      rfl
    refine ⟨?_, h1⟩
    have h2 : mapIndex st.services s = 0 := h0
    simp only [ServiceTracker.TrackService, if_true, h2]
    unfold wrapInt
    norm_num

/-- C2, witness: on a new tracker `"a"` has no entry and count 0; after
`TrackService("a")` the entry is `1` and the count is `0 + 1`; on the
saturated tracker the count of `"s"` becomes `-2^63`. -/
theorem trackService_adds_one_witness :
    (NewServiceTracker.TrackService "a").GetServiceCount "a"
        = NewServiceTracker.GetServiceCount "a" + 1 ∧
      (saturated.TrackService "s").GetServiceCount "s" = minInt ∧
      (NewServiceTracker.TrackService "a").services "a" = some 1 ∧
      (NewServiceTracker.TrackService "a").GetServiceCount "a" = 1 :=
  ⟨(trackService_adds_one NewServiceTracker "a").1 (by decide),
   (trackService_adds_one saturated "s").2.1 (by decide),
   (trackService_adds_one NewServiceTracker "a").2.2 rfl⟩

/-- C2, counterexample: on the tracker whose count for `"s"` is `2^63 - 1`,
`TrackService("s")` leaves the count `-2^63`, which is not one more than
before. -/
theorem trackService_adds_one_overflow :
    saturated.GetServiceCount "s" = 2 ^ 63 - 1 ∧
      (saturated.TrackService "s").GetServiceCount "s" = -(2 ^ 63) ∧
      (saturated.TrackService "s").GetServiceCount "s" ≠ saturated.GetServiceCount "s" + 1 := by
  have h0 : saturated.GetServiceCount "s" = 2 ^ 63 - 1 := by
    simp [ServiceTracker.GetServiceCount, mapIndex, saturated, maxInt]
  have h1 : (saturated.TrackService "s").GetServiceCount "s" = -(2 ^ 63) := by
    rw [count_track_same, h0]
    unfold wrapInt
    norm_num
  refine ⟨h0, h1, ?_⟩
  rw [h1, h0]
  norm_num

/-- C3: for every service name `s` and every tracker reached from
`NewServiceTracker` by any sequence of `TrackService` calls none of which is
on `s`, `GetServiceCount(s)` returns 0. -/
theorem untracked_count_zero (s : String) (names : List String) (h : s ∉ names) :
    (trackAll NewServiceTracker names).GetServiceCount s = 0 := by
  rw [count_trackAll_other s names NewServiceTracker h]
  rfl

/-- C3, witness: after tracking `foo`, `x`, `foo`, the count of `bar` is 0. -/
theorem untracked_count_zero_witness :
    "bar" ∉ ["foo", "x", "foo"] ∧
      (trackAll NewServiceTracker ["foo", "x", "foo"]).GetServiceCount "bar" = 0 :=
  ⟨by decide, untracked_count_zero "bar" ["foo", "x", "foo"] (by decide)⟩

/-- C4: for every tracker state and every two distinct service names `a` and
`b`, `TrackService(a)` leaves `GetServiceCount(b)` unchanged. -/
theorem trackService_frame (st : ServiceTracker) (a b : String) (h : a ≠ b) :
    (st.TrackService a).GetServiceCount b = st.GetServiceCount b :=
  count_track_other st a b h

/-- C4, witness: with `"b"` tracked once, tracking `"a"` leaves the count of
`"b"` as it was. -/
theorem trackService_frame_witness :
    "a" ≠ "b" ∧
      ((NewServiceTracker.TrackService "b").TrackService "a").GetServiceCount "b"
        = (NewServiceTracker.TrackService "b").GetServiceCount "b" :=
  ⟨by decide, trackService_frame (NewServiceTracker.TrackService "b") "a" "b" (by decide)⟩

/-- C5 (amended): for every tracker state reachable from `NewServiceTracker`
by any sequence of `TrackService` and `GetServiceCount` calls, every further
`TrackService` or `GetServiceCount` call, and every service name `s` on which
the sequence and the further call together hold at most `2^63 - 1`
`TrackService(s)` calls, the count of `s` after the call is greater than or
equal to the count of `s` before the call, and both are non-negative. -/
theorem counts_never_decrease (calls : List Call) (c : Call) (s : String)
    (h : (tracksOf s (calls ++ [c]) : Int) ≤ maxInt) :
    (reach calls).GetServiceCount s ≤ ((reach calls).call c).GetServiceCount s ∧
      0 ≤ (reach calls).GetServiceCount s ∧
      0 ≤ ((reach calls).call c).GetServiceCount s := by
  have hle : tracksOf s calls ≤ tracksOf s (calls ++ [c]) := by
    rw [tracksOf_snoc]; omega
  have hle2 : (tracksOf s calls : Int) ≤ maxInt := by
    have : (tracksOf s calls : Int) ≤ (tracksOf s (calls ++ [c]) : Int) := by exact_mod_cast hle
    omega
  rw [← count_reach_snoc, count_reach, count_reach, wrapInt_natCast _ h, wrapInt_natCast _ hle2]
  refine ⟨by exact_mod_cast hle, ?_, ?_⟩ <;> omega

/-- C5, witness: after `track a, get a, track b`, a further `track a` raises
the count of `a` from 1 to 2. -/
theorem counts_never_decrease_witness :
    (reach [.track "a", .get "a", .track "b"]).GetServiceCount "a"
        ≤ ((reach [.track "a", .get "a", .track "b"]).call (.track "a")).GetServiceCount "a" ∧
      0 ≤ (reach [.track "a", .get "a", .track "b"]).GetServiceCount "a" ∧
      0 ≤ ((reach [.track "a", .get "a", .track "b"]).call (.track "a")).GetServiceCount "a" :=
  counts_never_decrease [.track "a", .get "a", .track "b"] (.track "a") "a" (by decide)

/-- C5, counterexample: the tracker reached by `2^63 - 1` calls of
`TrackService("s")` has the count `2^63 - 1` for `"s"`; one further
`TrackService("s")` call leaves the count `-2^63`, which is smaller and
negative. -/
theorem counts_never_decrease_overflow :
    (reach (List.replicate (2 ^ 63 - 1) (Call.track "s"))).GetServiceCount "s" = 2 ^ 63 - 1 ∧
      ((reach (List.replicate (2 ^ 63 - 1) (Call.track "s"))).call
        (Call.track "s")).GetServiceCount "s" = -(2 ^ 63) ∧
      ¬ ((reach (List.replicate (2 ^ 63 - 1) (Call.track "s"))).GetServiceCount "s"
        ≤ ((reach (List.replicate (2 ^ 63 - 1) (Call.track "s"))).call
            (Call.track "s")).GetServiceCount "s") ∧
      ¬ (0 ≤ ((reach (List.replicate (2 ^ 63 - 1) (Call.track "s"))).call
            (Call.track "s")).GetServiceCount "s") := by
  have h0 : (reach (List.replicate (2 ^ 63 - 1) (Call.track "s"))).GetServiceCount "s"
      = 2 ^ 63 - 1 := by
    rw [count_reach, tracksOf_replicate]
    unfold wrapInt
    norm_num
  have h1 : ((reach (List.replicate (2 ^ 63 - 1) (Call.track "s"))).call
      (Call.track "s")).GetServiceCount "s" = -(2 ^ 63) := by
    rw [← count_reach_snoc, count_reach, tracksOf_snoc, tracksOf_replicate, if_pos rfl]
    unfold wrapInt
    norm_num
  refine ⟨h0, h1, ?_, ?_⟩
  · rw [h0, h1]; norm_num
  · rw [h1]; norm_num

/-! ## HTTP front end: the claims -/

/-- C6: for every tracker state and every service name `s`,
`GetServiceCountHandler` for a request whose path variable `service` is `s`
responds with status 200, the header `Content-Type` set to
`application/json`, and a body that is the JSON object with the single field
`count` whose value is the decimal rendering of `GetServiceCount(s)`: the
text between `\x7b"count":` and `\x7d` is the one that reads back, as a
decimal rendering, to that count.  It never takes the status-500 branch, and
it leaves the tracker unchanged. -/
theorem getServiceCountHandler_response (a : API) (r : Request) (s : String)
    (h : r.Vars "service" = s) :
    (a.GetServiceCountHandler ResponseWriter.fresh r).2.statusCode = 200 ∧
      (a.GetServiceCountHandler ResponseWriter.fresh r).2.headerValue "Content-Type"
        = some "application/json" ∧
      (a.GetServiceCountHandler ResponseWriter.fresh r).2.body
        = "\x7b\"count\":" ++ formatInt (a.tracker.GetServiceCount s) ++ "\x7d" ∧
      readDecimal (formatInt (a.tracker.GetServiceCount s)).data
        = some (a.tracker.GetServiceCount s) ∧
      (∃ json, jsonMarshalCount (a.tracker.GetServiceCount s) = .ok json) ∧
      (a.GetServiceCountHandler ResponseWriter.fresh r).2.statusCode ≠ 500 ∧
      (a.GetServiceCountHandler ResponseWriter.fresh r).1.tracker = a.tracker := by
  refine ⟨handler_get_status a r, ?_, ?_, readDecimal_formatInt _, ⟨_, rfl⟩, ?_, rfl⟩
  · simp [API.GetServiceCountHandler, jsonMarshalCount, ResponseWriter.Write,
      ResponseWriter.SetHeader, ResponseWriter.WriteHeader, ResponseWriter.fresh,
      ResponseWriter.headerValue]
  · rw [handler_get_body, h]
  · rw [handler_get_status]; decide

/-- C6, witness: with `foo` tracked twelve times and `bar` once, the request
`GET /count/foo`, path variable `service` bound to `foo`, is answered 200
with the body `\x7b"count":12\x7d`, and the text `12` reads back to the
count of `foo`, which is 12; on the tracker whose count for `s` has wrapped
to `-2^63` the body for `s` is `\x7b"count":-9223372036854775808\x7d`. -/
theorem getServiceCountHandler_response_witness :
    ((API.mk sampleTracker).GetServiceCountHandler ResponseWriter.fresh
        ⟨"GET", "/count/foo", [("service", "foo")]⟩).2.statusCode = 200 ∧
      ((API.mk sampleTracker).GetServiceCountHandler ResponseWriter.fresh
        ⟨"GET", "/count/foo", [("service", "foo")]⟩).2.body = "\x7b\"count\":12\x7d" ∧
      readDecimal "12".data = some (sampleTracker.GetServiceCount "foo") ∧
      sampleTracker.GetServiceCount "foo" = 12 ∧
      ((API.mk (saturated.TrackService "s")).GetServiceCountHandler ResponseWriter.fresh
        ⟨"GET", "/count/s", [("service", "s")]⟩).2.body
        = "\x7b\"count\":-9223372036854775808\x7d" := by
  have h := getServiceCountHandler_response (API.mk sampleTracker)
    ⟨"GET", "/count/foo", [("service", "foo")]⟩ "foo" (by decide)
  have h2 := getServiceCountHandler_response (API.mk (saturated.TrackService "s"))
    ⟨"GET", "/count/s", [("service", "s")]⟩ "s" (by decide)
  have hc : sampleTracker.GetServiceCount "foo" = 12 := by
    unfold sampleTracker
    rw [count_trackTimes, count_track_other _ "bar" "foo" (by decide), count_new]
    unfold wrapInt
    norm_num
  have hf : formatInt (sampleTracker.GetServiceCount "foo") = "12" := by rw [hc]; decide
  have hs : formatInt ((saturated.TrackService "s").GetServiceCount "s")
      = "-9223372036854775808" := by decide
  refine ⟨h.1, ?_, ?_, hc, ?_⟩
  · rw [h.2.2.1]
    show "\x7b\"count\":" ++ formatInt (sampleTracker.GetServiceCount "foo") ++ "\x7d" = _
    rw [hf]; decide
  · have h3 := h.2.2.2.1
    rw [show (API.mk sampleTracker).tracker = sampleTracker from rfl, hf] at h3
    exact h3
  · rw [h2.2.2.1]
    show "\x7b\"count\":" ++ formatInt ((saturated.TrackService "s").GetServiceCount "s")
      ++ "\x7d" = _
    rw [hs]; decide

/-- C7: for every tracker state and every service name `s`,
`TrackServiceHandler` for a request whose path variable `service` is `s`
responds with status 204 and an empty body, and its effect on the tracker is
exactly one `TrackService(s)` call. -/
theorem trackServiceHandler_response (a : API) (r : Request) (s : String)
    (h : r.Vars "service" = s) :
    (a.TrackServiceHandler ResponseWriter.fresh r).2.statusCode = 204 ∧
      (a.TrackServiceHandler ResponseWriter.fresh r).2.body = "" ∧
      (a.TrackServiceHandler ResponseWriter.fresh r).1.tracker = a.tracker.TrackService s := by
  refine ⟨rfl, rfl, ?_⟩
  simp only [API.TrackServiceHandler, h]

/-- C7, witness: `POST /track/foo` on a new API, with the path variable
`service` bound to `foo`, is answered 204 with an empty body and leaves the
tracker of one `TrackService("foo")` call. -/
theorem trackServiceHandler_response_witness :
    (NewAPI.TrackServiceHandler ResponseWriter.fresh
        ⟨"POST", "/track/foo", [("service", "foo")]⟩).2.statusCode = 204 ∧
      (NewAPI.TrackServiceHandler ResponseWriter.fresh
        ⟨"POST", "/track/foo", [("service", "foo")]⟩).2.body = "" ∧
      (NewAPI.TrackServiceHandler ResponseWriter.fresh
        ⟨"POST", "/track/foo", [("service", "foo")]⟩).1.tracker
        = NewAPI.tracker.TrackService "foo" :=
  trackServiceHandler_response NewAPI ⟨"POST", "/track/foo", [("service", "foo")]⟩ "foo"
    (by decide)

/-- C8 (amended): end to end, for every service name `x` that is one
non-empty path segment (it holds no `/`) other than `.` and `..`, and every
natural number `n` up to the largest `int`, `2^63 - 1`, on an API made by
`NewAPI`, `n` sequential `POST /track/x` requests are each answered 204 with
an empty body and a following `GET /count/x` yields status 200 and the body
`\x7b"count":n\x7d` with `n` in decimal and no whitespace (the text of `n`
reads back, as a decimal rendering, to `n`). -/
theorem end_to_end_count (x : String) (n : Nat) (hx : isSegment x)
    (hdot : x ≠ ".") (hdots : x ≠ "..") (hn : (n : Int) ≤ maxInt) :
    (serveAll NewAPI (List.replicate n (postTrack x))).2.length = n ∧
      (∀ w ∈ (serveAll NewAPI (List.replicate n (postTrack x))).2,
        w.statusCode = 204 ∧ w.body = "") ∧
      (ServeHTTP (serveAll NewAPI (List.replicate n (postTrack x))).1
        (getCount x)).2.statusCode = 200 ∧
      (ServeHTTP (serveAll NewAPI (List.replicate n (postTrack x))).1
        (getCount x)).2.body = countBody n ∧
      readDecimal (Nat.repr n).data = some (n : Int) := by
  rw [serveAll_posts x hx hdot hdots n NewAPI]
  refine ⟨by simp, ?_, ?_, ?_, readDecimal_formatInt (n : Int)⟩
  · intro w hw
    rw [List.eq_of_mem_replicate hw]
    exact ⟨rfl, rfl⟩
  · rw [serve_get_count _ x hx hdot hdots]
    exact handler_get_status _ _
  · rw [serve_get_count _ x hx hdot hdots, handler_get_body]
    have hv : Request.Vars { getCount x with vars := [("service", x)] } "service" = x := by
      simp [Request.Vars]
    have hc : (trackTimes x n NewAPI.tracker).GetServiceCount x = n := by
      show (trackTimes x n NewServiceTracker).GetServiceCount x = n
      rw [count_trackTimes, count_new, zero_add]
      exact wrapInt_natCast n hn
    simp only [hv, hc, formatInt_natCast, countBody]

/-- C8, witness: the spec's cases.  One `POST /track/foo` is answered 204
with an empty body, then `GET /count/foo` gives 200 and `\x7b"count":1\x7d`;
three `POST /track/x` then `GET /count/x` give `\x7b"count":3\x7d`. -/
theorem end_to_end_count_witness :
    ((∀ w ∈ (serveAll NewAPI (List.replicate 1 (postTrack "foo"))).2,
        w.statusCode = 204 ∧ w.body = "") ∧
      (ServeHTTP (serveAll NewAPI (List.replicate 1 (postTrack "foo"))).1
        (getCount "foo")).2.statusCode = 200 ∧
      (ServeHTTP (serveAll NewAPI (List.replicate 1 (postTrack "foo"))).1
        (getCount "foo")).2.body = "\x7b\"count\":1\x7d") ∧
      (serveAll NewAPI (List.replicate 3 (postTrack "x"))).2.length = 3 ∧
      (ServeHTTP (serveAll NewAPI (List.replicate 3 (postTrack "x"))).1
        (getCount "x")).2.body = "\x7b\"count\":3\x7d" :=
  ⟨⟨(end_to_end_count "foo" 1 (by decide) (by decide) (by decide) (by decide)).2.1,
    (end_to_end_count "foo" 1 (by decide) (by decide) (by decide) (by decide)).2.2.1,
    (end_to_end_count "foo" 1 (by decide) (by decide) (by decide) (by decide)).2.2.2.1⟩,
   (end_to_end_count "x" 3 (by decide) (by decide) (by decide) (by decide)).1,
   (end_to_end_count "x" 3 (by decide) (by decide) (by decide) (by decide)).2.2.2.1⟩

/-- C8, counterexample: for the non-empty name `a/b`, `POST /track/a/b` is
answered 404, not 204; for the non-empty names `.` and `..`, which hold no
`/`, `POST /track/.` and `POST /track/..` are answered 301 and track
nothing; and after `2^63` sequential `POST /track/x` requests, `GET /count/x`
yields the body `\x7b"count":-9223372036854775808\x7d`, which is not
`\x7b"count":n\x7d` for `n = 2^63`. -/
theorem end_to_end_count_fails :
    ("a/b" ≠ "" ∧ (ServeHTTP NewAPI (postTrack "a/b")).2.statusCode = 404) ∧
      ("." ≠ "" ∧ isSegment "." ∧ (ServeHTTP NewAPI (postTrack ".")).2.statusCode = 301 ∧
        (ServeHTTP NewAPI (postTrack ".")).1.tracker.GetServiceCount "." = 0) ∧
      (".." ≠ "" ∧ isSegment ".." ∧ (ServeHTTP NewAPI (postTrack "..")).2.statusCode = 301) ∧
      (ServeHTTP (serveAll NewAPI (List.replicate (2 ^ 63) (postTrack "x"))).1
          (getCount "x")).2.body = "\x7b\"count\":-9223372036854775808\x7d" ∧
      (ServeHTTP (serveAll NewAPI (List.replicate (2 ^ 63) (postTrack "x"))).1
          (getCount "x")).2.body ≠ countBody (2 ^ 63) := by
  have hx : isSegment "x" := by decide
  have hx1 : "x" ≠ "." := by decide
  have hx2 : "x" ≠ ".." := by decide
  have hb : (ServeHTTP (serveAll NewAPI (List.replicate (2 ^ 63) (postTrack "x"))).1
      (getCount "x")).2.body = "\x7b\"count\":-9223372036854775808\x7d" := by
    rw [serveAll_posts "x" hx hx1 hx2 (2 ^ 63) NewAPI, serve_get_count _ "x" hx hx1 hx2,
      handler_get_body]
    have hv : Request.Vars { getCount "x" with vars := [("service", "x")] } "service" = "x" := by
      decide
    have hc : (trackTimes "x" (2 ^ 63) NewAPI.tracker).GetServiceCount "x" = -(2 ^ 63) := by
      show (trackTimes "x" (2 ^ 63) NewServiceTracker).GetServiceCount "x" = -(2 ^ 63)
      rw [count_trackTimes, count_new, zero_add]
      unfold wrapInt
      norm_num
    rw [hv, hc]
    decide
  refine ⟨⟨by decide, by decide⟩, ⟨by decide, by decide, by decide, by decide⟩,
    ⟨by decide, by decide, by decide⟩, hb, ?_⟩
  rw [hb]
  decide

/-- C10 (amended): for every service name `s`, a request with method GET and
path `/track/s` is not dispatched to `TrackServiceHandler` by the route table
built in `main`: the response status is never 204 and the tracker is left as
it was.  When `/track/s` is in the router's canonical form (it equals its
cleaned path) the status is the router's default error status (405 or 404),
and it is 405 for every `s` that is one non-empty segment other than `.` and
`..`; when `/track/s` is not in canonical form the router answers 301. -/
theorem get_track_not_dispatched (a : API) (s : String) :
    (∀ vars, Router.Match mainRoutes (getTrack s) false ≠ .found .trackService vars) ∧
      (ServeHTTP a (getTrack s)).2.statusCode ≠ 204 ∧
      (ServeHTTP a (getTrack s)).1.tracker = a.tracker ∧
      (cleanPath (getTrack s).path = (getTrack s).path →
        (ServeHTTP a (getTrack s)).2.statusCode = 405 ∨
          (ServeHTTP a (getTrack s)).2.statusCode = 404) ∧
      (isSegment s → s ≠ "." → s ≠ ".." → (ServeHTTP a (getTrack s)).2.statusCode = 405) ∧
      (cleanPath (getTrack s).path ≠ (getTrack s).path →
        (ServeHTTP a (getTrack s)).2.statusCode = 301) := by
  have h301 : (ResponseWriter.fresh.WriteHeader 301).statusCode = 301 := rfl
  have h405 : (ResponseWriter.fresh.WriteHeader 405).statusCode = 405 := rfl
  have h404 : (httpError ResponseWriter.fresh "404 page not found" 404).statusCode = 404 := by
    decide
  refine ⟨route_get_track_never s, ?_, ?_, ?_, ?_, ?_⟩
  · rcases serve_get_track a s with ⟨_, h⟩ | ⟨_, _, h⟩ | ⟨_, _, h⟩ <;> rw [h]
    · show (ResponseWriter.fresh.WriteHeader 301).statusCode ≠ 204
      rw [h301]; decide
    · show (ResponseWriter.fresh.WriteHeader 405).statusCode ≠ 204
      rw [h405]; decide
    · show (httpError ResponseWriter.fresh "404 page not found" 404).statusCode ≠ 204
      rw [h404]; decide
  · rcases serve_get_track a s with ⟨_, h⟩ | ⟨_, _, h⟩ | ⟨_, _, h⟩ <;> rw [h]
  · intro hc
    rcases serve_get_track a s with ⟨hn, _⟩ | ⟨_, _, h⟩ | ⟨_, _, h⟩
    · exact absurd hc hn
    · rw [h]; exact Or.inl h405
    · rw [h]; exact Or.inr h404
  · intro hs h1 h2
    have hc : cleanPath (getTrack s).path = (getTrack s).path := cleanPath_track s hs h1 h2
    have hm := route_get_track_segment s hs
    rcases serve_get_track a s with ⟨hn, _⟩ | ⟨_, _, h⟩ | ⟨_, hm2, _⟩
    · exact absurd hc hn
    · rw [h]; exact h405
    · rw [hm] at hm2; cases hm2
  · intro hn
    rcases serve_get_track a s with ⟨_, h⟩ | ⟨hc, _, _⟩ | ⟨hc, _, _⟩
    · rw [h]; exact h301
    · exact absurd hc hn
    · exact absurd hc hn

/-- C10, witness: `GET /track/foo` is answered 405; `GET /track/a/b`, a
canonical path no route matches, is answered 404; `GET /track//foo`, not in
canonical form, is answered 301. -/
theorem get_track_not_dispatched_witness :
    (ServeHTTP NewAPI (getTrack "foo")).2.statusCode = 405 ∧
      ((ServeHTTP NewAPI (getTrack "a/b")).2.statusCode = 405 ∨
        (ServeHTTP NewAPI (getTrack "a/b")).2.statusCode = 404) ∧
      (ServeHTTP NewAPI (getTrack "/foo")).2.statusCode = 301 :=
  ⟨(get_track_not_dispatched NewAPI "foo").2.2.2.2.1 (by decide) (by decide) (by decide),
   (get_track_not_dispatched NewAPI "a/b").2.2.2.1 (by decide),
   (get_track_not_dispatched NewAPI "/foo").2.2.2.2.2 (by decide)⟩

/-- C10, counterexample: for the service name `.`, `GET /track/.` is answered
301, which is neither 405 nor 404. -/
theorem get_track_redirected :
    (ServeHTTP NewAPI (getTrack ".")).2.statusCode = 301 ∧
      ¬ ((ServeHTTP NewAPI (getTrack ".")).2.statusCode = 405 ∨
        (ServeHTTP NewAPI (getTrack ".")).2.statusCode = 404) := by
  decide

end Tracker
